import Mathlib

/-!
# Verification of the field-formatting serializers

Shallow embedding of `src/services/common/serializers/formart_serializers.py`:
six serializer fields whose `formatter` methods turn raw values into display
strings (monetary, date, masked, percentage, boolean, duration), plus the
shared `to_representation` / `to_internal_value` plumbing of the base class.

The numeric formatters run on Python's `decimal` module under its default
context: precision 28, rounding `ROUND_HALF_EVEN`, `Emax = 999999`, with the
`InvalidOperation` and `Overflow` signals trapped (raised as exceptions).
The embedding models finite decimal values (sign, coefficient, exponent);
the special values `NaN` and `Infinity` are outside the modeled input domain,
matching the spec's data model ("arbitrary-precision decimal; finite").
-/

namespace FormatSerializers

/-! ## Small string helpers (modelling `%d`, `%02d`, `%06d`, `str`) -/

/-- Decimal digit count of a natural number, as `len(str(n))` in Python. -/
def digitsCount (n : Nat) : Nat := (Nat.repr n).length

/-- Zero-padded two-digit rendering, as Python `%02d` on a small `Nat`. -/
def pad2 (n : Nat) : String :=
  if n < 10 then "0" ++ Nat.repr n else Nat.repr n

/-- Zero-padded four-digit rendering, as Python `%04d` on a small `Nat`. -/
def pad4 (n : Nat) : String :=
  if n < 10 then "000" ++ Nat.repr n
  else if n < 100 then "00" ++ Nat.repr n
  else if n < 1000 then "0" ++ Nat.repr n
  else Nat.repr n

/-- Zero-padded six-digit rendering, as Python `%06d` on a `Nat < 10^6`. -/
def pad6 (n : Nat) : String :=
  if n < 10 then "00000" ++ Nat.repr n
  else if n < 100 then "0000" ++ Nat.repr n
  else if n < 1000 then "000" ++ Nat.repr n
  else if n < 10000 then "00" ++ Nat.repr n
  else if n < 100000 then "0" ++ Nat.repr n
  else Nat.repr n

/-- Python `%d` / `str` on an integer: optional minus sign, then digits. -/
def intStr (n : Int) : String :=
  if n < 0 then "-" ++ Nat.repr n.natAbs else Nat.repr n.natAbs

/-- Insert a comma after every three characters of a reversed digit list;
used to model the thousands separator of Python's `'\x7b:,.2f\x7d'` format. -/
def commaGroupRev : List Char → List Char
  | a :: b :: c :: d :: rest => a :: b :: c :: ',' :: commaGroupRev (d :: rest)
  | l => l

/-- Thousands-separated rendering of a natural number, as in `'\x7b:,\x7d'.format(n)`. -/
def commaString (n : Nat) : String :=
  String.mk ((commaGroupRev (Nat.repr n).data.reverse).reverse)

/-! ## Finite decimal values (`decimal.Decimal`, finite case)

A finite Python decimal is a sign, a coefficient (digit string, kept here as
a `Nat`; `digitsCount` recovers `len(self._int)` since Python strips leading
zeros on construction), and an integer exponent.  The value denoted is
`(-1)^sign * coeff * 10^exp`.  A negative zero (`sign = true`, `coeff = 0`)
is representable, as in Python. -/

structure Dec where
  sign : Bool
  coeff : Nat
  exp : Int
deriving DecidableEq, Repr

/-- Errors surfaced by the formatters.  Python raises
`decimal.InvalidOperation`, `decimal.Overflow`, `TypeError` or
`NotImplementedError` on the corresponding paths; the spec names the
coercion failures `InvalidValueError`. -/
inductive PyError
  | invalidOperation
  | overflow
  | typeErr
  | notImplemented
deriving DecidableEq, Repr

/-! ## Parsing decimal strings (`decimal.Decimal(str)`)

Python strips surrounding whitespace, removes underscores, and matches the
decimal numeric-string grammar
`sign? (digits [. digits?] | . digits) ([eE] sign? digits)?`.
Only finite numerals are modeled (no `NaN` / `Infinity`). -/

/-- Optional leading sign; returns `true` for a minus sign. -/
def parseSign : List Char → Bool × List Char
  | '+' :: rest => (false, rest)
  | '-' :: rest => (true, rest)
  | l => (false, l)

/-- Longest digit run at the head of the list, and the remainder. -/
def takeDigits (l : List Char) : List Char × List Char :=
  l.span fun c => c.isDigit

/-- Value of a digit string, as `int(ds)`; leading zeros collapse. -/
def digitsToNat (ds : List Char) : Nat :=
  ds.foldl (fun acc c => acc * 10 + (c.toNat - 48)) 0

/-- Strip leading and trailing whitespace, as Python `str.strip()`. -/
def trimWs (l : List Char) : List Char :=
  ((l.dropWhile Char.isWhitespace).reverse.dropWhile Char.isWhitespace).reverse

/-- `decimal.Decimal(s)` on a finite numeral string: `some` of the parsed
value, `none` when Python would raise `InvalidOperation`. -/
def parseDecimal (s : String) : Option Dec :=
  let l := ((trimWs s.data).filter fun c => c ≠ '_')
  let (sign, l1) := parseSign l
  let (ipart, l2) := takeDigits l1
  let (fpart, l3) :=
    match l2 with
    | '.' :: rest => takeDigits rest
    | _ => ([], l2)
  if ipart = [] ∧ fpart = [] then none
  else
    match l3 with
    | [] => some ⟨sign, digitsToNat (ipart ++ fpart), -(fpart.length : Int)⟩
    | c :: rest =>
      if c = 'e' ∨ c = 'E' then
        let (esign, r2) := parseSign rest
        let (eds, r3) := takeDigits r2
        if eds = [] ∨ r3 ≠ [] then none
        else
          let e : Int := if esign then -(digitsToNat eds : Int) else (digitsToNat eds : Int)
          some ⟨sign, digitsToNat (ipart ++ fpart), e - (fpart.length : Int)⟩
      else none

/-! ## Datetimes and timedeltas (minute resolution)

`datetime.datetime` is modeled at minute resolution (the rendered format
`'%b %d %Y at %I:%M %p'` shows nothing below minutes); `tzOffset` is the
UTC offset in minutes carried by an aware value, `none` for a naive one. -/

structure PyDatetime where
  year : Int
  month : Nat
  day : Nat
  hour : Nat
  minute : Nat
  tzOffset : Option Int
deriving DecidableEq, Repr

/-- `datetime.timedelta`, normalized as in Python: `0 ≤ seconds < 86400`,
`0 ≤ microseconds < 10^6`, and `days` carries the sign. -/
structure Timedelta where
  days : Int
  seconds : Nat
  microseconds : Nat
deriving DecidableEq, Repr

/-- `str(timedelta)`: `[D day(s), ]H:MM:SS[.ffffff]` with unpadded hours,
plural chosen by `abs(days) != 1`, exactly as `timedelta.__str__`. -/
def pyTimedeltaStr (td : Timedelta) : String :=
  let mm := td.seconds / 60
  let ss := td.seconds % 60
  let hh := mm / 60
  let mi := mm % 60
  let hms := Nat.repr hh ++ ":" ++ pad2 mi ++ ":" ++ pad2 ss
  let withDays :=
    if td.days = 0 then hms
    else intStr td.days ++ (if td.days.natAbs = 1 then " day, " else " days, ") ++ hms
  if td.microseconds = 0 then withDays else withDays ++ "." ++ pad6 td.microseconds

/-! ## Python values reaching the serializers -/

inductive PyValue
  | pstr (s : String)
  | pint (n : Int)
  | pbool (b : Bool)
  | pdec (d : Dec)
  | pdatetime (t : PyDatetime)
  | ptimedelta (td : Timedelta)
deriving DecidableEq, Repr

/-- `str(Decimal)`: the to-scientific-string algorithm of `Decimal.__str__`. -/
def decStr (d : Dec) : String :=
  let digits := Nat.repr d.coeff
  let n : Int := (digits.length : Int)
  let leftdigits : Int := d.exp + n
  let dotplace : Int := if d.exp ≤ 0 ∧ -6 < leftdigits then leftdigits else 1
  let body :=
    if dotplace ≤ 0 then
      "0." ++ String.mk (List.replicate (-dotplace).toNat '0') ++ digits
    else if n ≤ dotplace then
      digits ++ String.mk (List.replicate (dotplace - n).toNat '0')
    else
      String.mk (digits.data.take dotplace.toNat) ++ "." ++
        String.mk (digits.data.drop dotplace.toNat)
  let expPart :=
    if leftdigits = dotplace then ""
    else
      let ev := leftdigits - dotplace
      "E" ++ (if 0 ≤ ev then "+" ++ Nat.repr ev.toNat else intStr ev)
  (if d.sign then "-" else "") ++ body ++ expPart

/-- UTC-offset suffix of `str(datetime)` for an aware value: `±HH:MM`. -/
def tzSuffix : Option Int → String
  | none => ""
  | some off =>
    (if off < 0 then "-" else "+") ++ pad2 (off.natAbs / 60) ++ ":" ++ pad2 (off.natAbs % 60)

/-- Python `str(value)` on the modeled values.  Datetimes render in ISO
form; the model carries minute resolution, so seconds render as `00`. -/
def pyStr : PyValue → String
  | .pstr s => s
  | .pint n => intStr n
  | .pbool b => if b then "True" else "False"
  | .pdec d => decStr d
  | .pdatetime t =>
    pad4 t.year.toNat ++ "-" ++ pad2 t.month ++ "-" ++ pad2 t.day ++ " " ++
      pad2 t.hour ++ ":" ++ pad2 t.minute ++ ":00" ++ tzSuffix t.tzOffset
  | .ptimedelta td => pyTimedeltaStr td

/-- Python truthiness of the modeled values. -/
def pyTruthy : PyValue → Bool
  | .pstr s => s ≠ ""
  | .pint n => n ≠ 0
  | .pbool b => b
  | .pdec d => d.coeff ≠ 0
  | .pdatetime _ => true
  | .ptimedelta td => ¬(td.days = 0 ∧ td.seconds = 0 ∧ td.microseconds = 0)

/-- `decimal.Decimal(value)`: exact conversion from strings, ints and
decimals (`bool` is an `int` subclass in Python); other types raise
`TypeError`. -/
def toDecimal : PyValue → Except PyError Dec
  | .pstr s =>
    match parseDecimal s with
    | some d => .ok d
    | none => .error .invalidOperation
  | .pint n => .ok ⟨decide (n < 0), n.natAbs, 0⟩
  | .pbool b => .ok ⟨false, if b then 1 else 0, 0⟩
  | .pdec d => .ok d
  | .pdatetime _ => .error .typeErr
  | .ptimedelta _ => .error .typeErr

/-! ## Monetary formatter

```python
def formatter(self, value):
    amount = decimal.Decimal(value)
    amount = amount.quantize(decimal.Decimal('.01'), rounding=decimal.ROUND_HALF_UP)
    amount_str = '\x7b:,.2f\x7d'.format(amount)
    return '$' + amount_str
```
`quantize` rescales the coefficient to exponent `-2` with `ROUND_HALF_UP`
(ties away from zero, applied to the coefficient magnitude) and raises
`InvalidOperation` when the resulting coefficient exceeds the context
precision of 28 digits. -/

/-- Magnitude of the value in hundredths, rounded half-up (away from zero):
the coefficient that `quantize(Decimal('.01'), ROUND_HALF_UP)` produces. -/
def centsHalfUp (c : Nat) (e : Int) : Nat :=
  if -2 ≤ e then c * 10 ^ (e + 2).toNat
  else
    c / 10 ^ (-(e + 2)).toNat +
      (if 10 ^ (-(e + 2)).toNat ≤ 2 * (c % 10 ^ (-(e + 2)).toNat) then 1 else 0)

/-- `amount.quantize(Decimal('.01'), rounding=ROUND_HALF_UP)` under the
default context (`prec = 28`): the rounded value with exponent `-2`, or
`InvalidOperation` when its coefficient needs more than 28 digits. -/
def quantizeCents (d : Dec) : Except PyError (Bool × Nat) :=
  if digitsCount (centsHalfUp d.coeff d.exp) ≤ 28 then
    .ok (d.sign, centsHalfUp d.coeff d.exp)
  else .error .invalidOperation

/-- `'\x7b:,.2f\x7d'.format` of a decimal already at exponent `-2`: sign, the
integer part with thousands separators, a point, two fractional digits. -/
def renderGrouped (sign : Bool) (cents : Nat) : String :=
  (if sign then "-" else "") ++ commaString (cents / 100) ++ "." ++ pad2 (cents % 100)

def MonetaryFieldSerializer.formatter (value : PyValue) : Except PyError String := do
  let amount ← toDecimal value
  let q ← quantizeCents amount
  pure ("$" ++ renderGrouped q.1 q.2)

/-! ## Date formatter

```python
def formatter(self, value):
    if isinstance(value, datetime.datetime):
        value = value.astimezone()
    return value.strftime('%b %d %Y at %I:%M %p')
```
`astimezone()` converts an aware datetime to the local system timezone; the
local zone is modeled as a fixed UTC offset `localOff` (in minutes), passed
explicitly since it is ambient state in Python.  A naive value is assumed to
already be local time (its wall-clock fields are unchanged).  The civil
calendar arithmetic follows the proleptic Gregorian calendar. -/

/-- Days from civil date (proleptic Gregorian) to 1970-01-01-based day
numbers. -/
def daysFromCivil (y : Int) (m d : Nat) : Int :=
  let y' : Int := if m ≤ 2 then y - 1 else y
  let era : Int := Int.fdiv y' 400
  let yoe : Int := y' - era * 400
  let mp : Int := if m ≤ 2 then (m : Int) + 9 else (m : Int) - 3
  let doy : Int := Int.fdiv (153 * mp + 2) 5 + (d : Int) - 1
  let doe : Int := yoe * 365 + Int.fdiv yoe 4 - Int.fdiv yoe 100 + doy
  era * 146097 + doe - 719468

/-- Civil date from a 1970-01-01-based day number. -/
def civilFromDays (z : Int) : Int × Nat × Nat :=
  let z' := z + 719468
  let era := Int.fdiv z' 146097
  let doe := (z' - era * 146097).toNat
  let yoe := (doe - doe / 1460 + doe / 36524 - doe / 146096) / 365
  let doy := doe - (365 * yoe + yoe / 4 - yoe / 100)
  let mp := (5 * doy + 2) / 153
  let d := doy - (153 * mp + 2) / 5 + 1
  let m := if mp < 10 then mp + 3 else mp - 9
  ((yoe : Int) + era * 400 + (if m ≤ 2 then 1 else 0), m, d)

/-- Minutes since 1970-01-01T00:00 UTC of an aware datetime with UTC offset
`off` minutes: the instant the value denotes. -/
def utcMinutes (t : PyDatetime) (off : Int) : Int :=
  daysFromCivil t.year t.month t.day * 1440 + ((t.hour * 60 + t.minute : Nat) : Int) - off

/-- The naive local civil datetime at a given instant (minutes since epoch)
in a zone `localOff` minutes ahead of UTC. -/
def civilOfMinutes (i : Int) : PyDatetime :=
  let days := Int.fdiv i 1440
  let mins := (Int.fmod i 1440).toNat
  let c := civilFromDays days
  ⟨c.1, c.2.1, c.2.2, mins / 60, mins % 60, none⟩

/-- C-locale `%b` month abbreviations. -/
def monthAbbrev (m : Nat) : String :=
  ["Jan", "Feb", "Mar", "Apr", "May", "Jun",
   "Jul", "Aug", "Sep", "Oct", "Nov", "Dec"].getD (m - 1) "???"

/-- `strftime('%b %d %Y at %I:%M %p')` in the C locale. -/
def strftimeDisplay (t : PyDatetime) : String :=
  let hh12 := if t.hour % 12 = 0 then 12 else t.hour % 12
  monthAbbrev t.month ++ " " ++ pad2 t.day ++ " " ++ intStr t.year ++ " at " ++
    pad2 hh12 ++ ":" ++ pad2 t.minute ++ " " ++ (if t.hour < 12 then "AM" else "PM")

def DateFieldSerializer.formatter (localOff : Int) (t : PyDatetime) : String :=
  let t' :=
    match t.tzOffset with
    | none => t
    | some off => civilOfMinutes (utcMinutes t off + localOff)
  strftimeDisplay t'

/-! ## Masked formatter

```python
def formatter(self, value):
    return '*' * len(str(value))
``` -/

def MaskedFieldSerializer.formatter (value : PyValue) : Except PyError String :=
  .ok (String.mk (List.replicate (pyStr value).length '*'))

/-! ## Percentage formatter

```python
def formatter(self, value):
    percentage = decimal.Decimal(value) * 100
    return '\x7b:.2f\x7d%'.format(percentage)
```
The context multiplication is exact, then rounded to the 28-digit precision
with `ROUND_HALF_EVEN` when needed, and raises `Overflow` when the adjusted
exponent of the (rounded) result exceeds `Emax = 999999`.  Formatting with
`.2f` rescales to exponent `-2` with `ROUND_HALF_EVEN` (no precision limit)
and never fails. -/

/-- Round a coefficient `c` down by the power `P = 10^s` with ties to even,
as the context rounding does on coefficient magnitudes. -/
def halfEvenDivStep (c P : Nat) : Nat :=
  if 2 * (c % P) < P then c / P
  else if P < 2 * (c % P) then c / P + 1
  else c / P + (c / P) % 2

/-- Round a coefficient to at most 28 digits (ties to even), returning the
new coefficient and exponent; a carry to 29 digits renormalizes. -/
def roundTo28 (c : Nat) (e : Int) : Nat × Int :=
  let s := digitsCount c - 28
  let q := halfEvenDivStep c (10 ^ s)
  if digitsCount q ≤ 28 then (q, e + s) else (q / 10, e + s + 1)

/-- The exponent checks of `Decimal._fix` after rounding: a zero result is
returned as is (Python may additionally clamp its exponent, which is
invisible in the `.2f` rendering); a nonzero result whose adjusted exponent
exceeds `Emax = 999999` raises `Overflow`. -/
def contextFix (sign : Bool) (c : Nat) (e : Int) : Except PyError Dec :=
  if c = 0 then .ok ⟨sign, 0, e⟩
  else if 999999 < e + (digitsCount c : Int) - 1 then .error .overflow
  else .ok ⟨sign, c, e⟩

/-- `Decimal(value) * 100` under the default context: exact product, rounded
to 28 digits if longer, `Overflow` if the adjusted exponent leaves the
context range. -/
def mul100 (d : Dec) : Except PyError Dec :=
  if digitsCount (d.coeff * 100) ≤ 28 then
    contextFix d.sign (d.coeff * 100) d.exp
  else
    contextFix d.sign (roundTo28 (d.coeff * 100) d.exp).1 (roundTo28 (d.coeff * 100) d.exp).2

/-- Magnitude in hundredths after the `.2f` rescale to exponent `-2` with
`ROUND_HALF_EVEN`. -/
def rescaleHalfEvenCents (c : Nat) (e : Int) : Nat :=
  if -2 ≤ e then c * 10 ^ (e + 2).toNat
  else halfEvenDivStep c (10 ^ (-(e + 2)).toNat)

/-- `'\x7b:.2f\x7d'.format` of a decimal: sign, integer part, point, two
fractional digits (no thousands separators). -/
def renderPlain (sign : Bool) (cents : Nat) : String :=
  (if sign then "-" else "") ++ Nat.repr (cents / 100) ++ "." ++ pad2 (cents % 100)

def PercentageFieldSerializer.formatter (value : PyValue) : Except PyError String := do
  let d ← toDecimal value
  let p ← mul100 d
  pure (renderPlain p.sign (rescaleHalfEvenCents p.coeff p.exp) ++ "%")

/-! ## Boolean and duration formatters -/

/-- `'True' if value else 'False'` (Python truthiness of the input). -/
def BooleanFieldSerializer.formatter (value : PyValue) : Except PyError String :=
  .ok (if pyTruthy value then "True" else "False")

/-- `str(value)` — no custom formatting. -/
def DurationFieldSerializer.formatter (value : PyValue) : Except PyError String :=
  .ok (pyStr value)

/-! ## Base class plumbing and the dispatch surface -/

/-- `FormattedFieldSerializer.to_representation`: raises
`NotImplementedError` when no `formatter` is defined, otherwise applies it. -/
def to_representation (formatterMethod : Option (PyValue → Except PyError String))
    (value : PyValue) : Except PyError String :=
  match formatterMethod with
  | none => .error .notImplemented
  | some f => f value

/-- `FormattedFieldSerializer.to_internal_value`: returns its input
unchanged. -/
def to_internal_value {α : Type} (data : α) : α := data

inductive FormatterKind
  | monetary
  | date
  | masked
  | percentage
  | boolean
  | duration
deriving DecidableEq, Repr

/-- The `formatter` method of the field serializer of each kind.  The date
field wraps its string result in `.ok`; a non-datetime input to it is a
`TypeError` (`AttributeError` territory in Python — no `strftime`). -/
def fieldFormatterOf (localOff : Int) : FormatterKind → PyValue → Except PyError String
  | .monetary => MonetaryFieldSerializer.formatter
  | .date => fun v =>
      match v with
      | .pdatetime t => .ok (DateFieldSerializer.formatter localOff t)
      | _ => .error .typeErr
  | .masked => MaskedFieldSerializer.formatter
  | .percentage => PercentageFieldSerializer.formatter
  | .boolean => BooleanFieldSerializer.formatter
  | .duration => DurationFieldSerializer.formatter

/-- `format(kind, value)`: `to_representation` with the kind's formatter. -/
def format (localOff : Int) (k : FormatterKind) (v : PyValue) : Except PyError String :=
  to_representation (some (fieldFormatterOf localOff k)) v

/-- A sequence of independent formatting calls, each producing its output. -/
def runCalls (localOff : Int) (calls : List (FormatterKind × PyValue)) :
    List (Except PyError String) :=
  calls.map fun c => format localOff c.1 c.2

/-! ## Value-level (rational) readings of the spec

These definitions follow the spec's words — exact rational value of the
input, rounded at the stated place — and serve as refinement targets for
the digit-level formatters above. -/

/-- The exact rational magnitude `coeff * 10^exp` of a finite decimal. -/
def decAbsRat (d : Dec) : ℚ := (d.coeff : ℚ) * (10 : ℚ) ^ d.exp

/-- Half-up (ties away from zero) rounding of the magnitude to hundredths:
`⌊|v| * 100 + 1/2⌋`. -/
def specCents (d : Dec) : Nat := (⌊decAbsRat d * 100 + 1 / 2⌋).toNat

/-- Spec reading of the monetary formatter: `$`, sign, thousands-separated
integer part, exactly two fractional digits, half-up at the second digit. -/
def specMonetary (d : Dec) : String := "$" ++ renderGrouped d.sign (specCents d)

/-- Round-half-even (banker's rounding) of a rational to an integer. -/
def halfEvenRound (q : ℚ) : ℤ :=
  if Int.fract q < 1 / 2 then ⌊q⌋
  else if 1 / 2 < Int.fract q then ⌊q⌋ + 1
  else if ⌊q⌋ % 2 = 0 then ⌊q⌋ else ⌊q⌋ + 1

/-- The magnitude of the percentage, in hundredths of a percent: the exact
value times `100` (percent) times `100` (two rendered digits), rounded
half-even. -/
def specHundredths (d : Dec) : Nat := (halfEvenRound (decAbsRat d * 10000)).toNat

/-- Spec reading of the percentage formatter: the value times 100 rendered
with exactly two fractional digits, then `%`. -/
def specPercentage (d : Dec) : String :=
  renderPlain d.sign (specHundredths d) ++ "%"

/-! ## Digit-level rounding agrees with value-level rounding -/


theorem floor_nat_div_nat (a b : Nat) : ⌊(a : ℚ) / (b : ℚ)⌋ = ((a / b : Nat) : ℤ) := by
  have h0 : (0 : ℚ) ≤ (a : ℚ) / (b : ℚ) := div_nonneg (Nat.cast_nonneg a) (Nat.cast_nonneg b)
  rw [← Int.natCast_floor_eq_floor h0]
  have : ⌊(a : ℚ) / (b : ℚ)⌋₊ = a / b := by
    rw [Nat.floor_div_nat, Nat.floor_natCast]
  rw [this]

theorem fract_nat_div (a P : Nat) (hP : 0 < P) :
    Int.fract ((a : ℚ) / (P : ℚ)) = ((a % P : Nat) : ℚ) / (P : ℚ) := by
  have hP' : ((P : ℚ)) ≠ 0 := by exact_mod_cast hP.ne'
  have hcomb : ((a / P : Nat) : ℚ) + ((a % P : Nat) : ℚ) / (P : ℚ)
      = (((a / P) * P + a % P : Nat) : ℚ) / (P : ℚ) := by
    push_cast
    field_simp
  have hid : (a / P) * P + a % P = a := by
    rw [Nat.mul_comm]
    exact Nat.div_add_mod a P
  have hsplit : (a : ℚ) / (P : ℚ) = ((a / P : Nat) : ℚ) + ((a % P : Nat) : ℚ) / (P : ℚ) := by
    rw [hcomb, hid]
  rw [hsplit, ← Int.cast_natCast (n := a / P), Int.fract_int_add]
  refine Int.fract_eq_self.mpr ⟨div_nonneg (Nat.cast_nonneg _) (Nat.cast_nonneg _), ?_⟩
  rw [div_lt_one (by exact_mod_cast hP)]
  exact_mod_cast Nat.mod_lt a hP

theorem halfUp_div_eq (a P : Nat) (hP : 0 < P) :
    (⌊(a : ℚ) / (P : ℚ) + 1 / 2⌋).toNat =
      a / P + (if P ≤ 2 * (a % P) then 1 else 0) := by
  have hP' : ((P : ℚ)) ≠ 0 := by exact_mod_cast hP.ne'
  have key : (a : ℚ) / (P : ℚ) + 1 / 2 = ((2 * a + P : Nat) : ℚ) / ((2 * P : Nat) : ℚ) := by
    push_cast
    field_simp
    ring
  rw [key, floor_nat_div_nat, Int.toNat_natCast]
  obtain ⟨q, r, hr, ha⟩ : ∃ q r, r < P ∧ a = P * q + r :=
    ⟨a / P, a % P, Nat.mod_lt a hP, (Nat.div_add_mod a P).symm⟩
  subst ha
  have hdiv : (P * q + r) / P = q := by
    rw [Nat.mul_add_div hP, Nat.div_eq_of_lt hr, Nat.add_zero]
  have hmod : (P * q + r) % P = r := by
    rw [Nat.mul_add_mod, Nat.mod_eq_of_lt hr]
  rw [hdiv, hmod]
  have harr : 2 * (P * q + r) + P = (2 * P) * q + (2 * r + P) := by ring
  rw [harr, Nat.mul_add_div (by omega)]
  by_cases hc : P ≤ 2 * r
  · rw [if_pos hc]
    have h1 : (2 * r + P) / (2 * P) = 1 := Nat.div_eq_of_lt_le (by omega) (by omega)
    omega
  · rw [if_neg hc]
    have h1 : (2 * r + P) / (2 * P) = 0 := Nat.div_eq_of_lt (by omega)
    omega
theorem halfEvenRound_natCast (n : Nat) : halfEvenRound ((n : ℚ)) = (n : ℤ) := by
  unfold halfEvenRound
  rw [Int.fract_natCast, Int.floor_natCast]
  norm_num

theorem halfEvenDivStep_eq (a P : Nat) (hP : 0 < P) :
    halfEvenDivStep a P = (halfEvenRound ((a : ℚ) / (P : ℚ))).toNat := by
  have hPQ : (0 : ℚ) < (P : ℚ) := by exact_mod_cast hP
  unfold halfEvenDivStep halfEvenRound
  rw [fract_nat_div a P hP, floor_nat_div_nat]
  obtain ⟨q, r, hr, ha⟩ : ∃ q r, r < P ∧ a = P * q + r :=
    ⟨a / P, a % P, Nat.mod_lt a hP, (Nat.div_add_mod a P).symm⟩
  have hdiv : a / P = q := by
    subst ha
    rw [Nat.mul_add_div hP, Nat.div_eq_of_lt hr, Nat.add_zero]
  have hmod : a % P = r := by
    subst ha
    rw [Nat.mul_add_mod, Nat.mod_eq_of_lt hr]
  rw [hdiv, hmod]
  have hlt : ((r : ℚ) / (P : ℚ) < 1 / 2) ↔ 2 * r < P := by
    rw [div_lt_div_iff₀ hPQ (by norm_num : (0 : ℚ) < 2)]
    constructor
    · intro h
      have h2 : ((2 * r : Nat) : ℚ) < ((P : Nat) : ℚ) := by push_cast; linarith
      exact_mod_cast h2
    · intro h
      have h2 : ((2 * r : Nat) : ℚ) < ((P : Nat) : ℚ) := by exact_mod_cast h
      push_cast at h2
      linarith
  have hgt : (1 / 2 < (r : ℚ) / (P : ℚ)) ↔ P < 2 * r := by
    rw [div_lt_div_iff₀ (by norm_num : (0 : ℚ) < 2) hPQ]
    constructor
    · intro h
      have h2 : ((P : Nat) : ℚ) < ((2 * r : Nat) : ℚ) := by push_cast; linarith
      exact_mod_cast h2
    · intro h
      have h2 : ((P : Nat) : ℚ) < ((2 * r : Nat) : ℚ) := by exact_mod_cast h
      push_cast at h2
      linarith
  by_cases h1 : 2 * r < P
  · rw [if_pos h1, if_pos (hlt.mpr h1)]
    exact (Int.toNat_natCast q).symm
  · rw [if_neg h1, if_neg (fun h => h1 (hlt.mp h))]
    by_cases h2 : P < 2 * r
    · rw [if_pos h2, if_pos (hgt.mpr h2)]
      rw [show ((q : ℤ) + 1) = ((q + 1 : Nat) : ℤ) by push_cast; ring, Int.toNat_natCast]
    · rw [if_neg h2, if_neg (fun h => h2 (hgt.mp h))]
      by_cases h3 : ((q : ℤ)) % 2 = 0
      · rw [if_pos h3]
        have hq2 : q % 2 = 0 := by exact_mod_cast h3
        rw [hq2, Nat.add_zero]
        exact (Int.toNat_natCast q).symm
      · rw [if_neg h3]
        have hq2 : q % 2 = 1 := by
          rcases Nat.mod_two_eq_zero_or_one q with h | h
          · exact absurd (by exact_mod_cast h : ((q : ℤ)) % 2 = 0) h3
          · exact h
        rw [hq2,
          show ((q : ℤ) + 1) = ((q + 1 : Nat) : ℤ) by push_cast; ring, Int.toNat_natCast]

theorem magnitude_shift_ge (m : Nat) (e : Int) (h : -2 ≤ e) :
    (m : ℚ) * (10 : ℚ) ^ e * 100 = ((m * 10 ^ (e + 2).toNat : Nat) : ℚ) := by
  have h2 : (((e + 2).toNat : Nat) : ℤ) = e + 2 := Int.toNat_of_nonneg (by omega)
  push_cast
  rw [← zpow_natCast (10 : ℚ) (e + 2).toNat, h2,
    zpow_add₀ (by norm_num : (10 : ℚ) ≠ 0) e 2]
  norm_num
  ring

theorem magnitude_shift_lt (m : Nat) (e : Int) (h : e < -2) :
    (m : ℚ) * (10 : ℚ) ^ e * 100 = (m : ℚ) / ((10 ^ (-(e + 2)).toNat : Nat) : ℚ) := by
  have h2 : (((-(e + 2)).toNat : Nat) : ℤ) = -(e + 2) := Int.toNat_of_nonneg (by omega)
  push_cast
  rw [div_eq_mul_inv, ← zpow_natCast (10 : ℚ) (-(e + 2)).toNat, h2, ← zpow_neg, neg_neg,
    zpow_add₀ (by norm_num : (10 : ℚ) ≠ 0) e 2]
  norm_num
  ring

theorem centsHalfUp_eq_spec (c : Nat) (e : Int) :
    centsHalfUp c e = (⌊(c : ℚ) * (10 : ℚ) ^ e * 100 + 1 / 2⌋).toNat := by
  unfold centsHalfUp
  by_cases h : -2 ≤ e
  · rw [if_pos h, magnitude_shift_ge c e h]
    have : ((c * 10 ^ (e + 2).toNat : Nat) : ℚ) + 1 / 2 =
        1 / 2 + (((c * 10 ^ (e + 2).toNat : Nat) : ℤ) : ℚ) := by push_cast; ring
    rw [this, Int.floor_add_int]
    have hfl : ⌊(1 / 2 : ℚ)⌋ = 0 := by norm_num
    rw [hfl]
    omega
  · rw [if_neg h, magnitude_shift_lt c e (by omega)]
    exact (halfUp_div_eq c _ (Nat.pos_pow_of_pos _ (by norm_num))).symm

theorem rescaleHalfEvenCents_eq_spec (c : Nat) (e : Int) :
    rescaleHalfEvenCents c e = (halfEvenRound ((c : ℚ) * (10 : ℚ) ^ e * 100)).toNat := by
  unfold rescaleHalfEvenCents
  by_cases h : -2 ≤ e
  · rw [if_pos h, magnitude_shift_ge c e h, halfEvenRound_natCast, Int.toNat_natCast]
  · rw [if_neg h, magnitude_shift_lt c e (by omega)]
    exact halfEvenDivStep_eq c _ (Nat.pos_pow_of_pos _ (by norm_num))


/-! ## The claims -/

/-- Claim C1 (amended): for every valid (finite) decimal input whose
half-up-rounded value in hundredths fits the context's 28-digit precision,
the monetary formatter returns the dollar sign followed by the sign and the
thousands-separated rendering of the value with exactly two fractional
digits, the second obtained by half-up (ties away from zero) rounding.
(The unamended claim fails for wider inputs: see the counterexample.) -/
theorem claim_C1_monetary_halfup (d : Dec)
    (h : digitsCount (centsHalfUp d.coeff d.exp) ≤ 28) :
    MonetaryFieldSerializer.formatter (.pdec d) = .ok (specMonetary d) := by
  have hq : quantizeCents d = .ok (d.sign, centsHalfUp d.coeff d.exp) := by
    unfold quantizeCents
    rw [if_pos h]
  show (toDecimal (.pdec d)).bind (fun amount =>
    (quantizeCents amount).bind fun q => pure ("$" ++ renderGrouped q.1 q.2)) =
      .ok (specMonetary d)
  rw [show toDecimal (.pdec d) = .ok d from rfl]
  simp only [Except.bind, hq, pure]
  unfold specMonetary specCents decAbsRat
  rw [centsHalfUp_eq_spec]
  rfl

/-- Witness for C1: the spec's own examples, `2.005 ↦ $2.01` and
`1234.565 ↦ $1,234.57`, via the theorem. -/
theorem claim_C1_witness :
    MonetaryFieldSerializer.formatter (.pdec ⟨false, 2005, -3⟩) = .ok "$2.01" ∧
    MonetaryFieldSerializer.formatter (.pdec ⟨false, 1234565, -3⟩) = .ok "$1,234.57" := by
  have h1 := claim_C1_monetary_halfup ⟨false, 2005, -3⟩ (by decide)
  have h2 := claim_C1_monetary_halfup ⟨false, 1234565, -3⟩ (by decide)
  rw [h1, h2]
  have e1 : specCents ⟨false, 2005, -3⟩ = 201 := by
    unfold specCents decAbsRat
    norm_num
    rfl
  have e2 : specCents ⟨false, 1234565, -3⟩ = 123457 := by
    unfold specCents decAbsRat
    norm_num
    rfl
  unfold specMonetary
  rw [e1, e2]
  exact ⟨rfl, rfl⟩

/-- Counterexample to C1 as stated: `Decimal('1E+27')` is a valid (finite)
decimal input, but the monetary formatter raises (`InvalidOperation`: the
quantized coefficient would need 30 > 28 digits) rather than returning a
dollar string. -/
theorem claim_C1_counterexample :
    MonetaryFieldSerializer.formatter (.pstr "1E+27") = .error .invalidOperation := rfl

/-- Claim C2 (amended): coercion failures propagate out of the monetary and
percentage formatters as errors (never a silently returned string), and
coercible inputs are formatted without error provided the result stays
within the decimal context: at most 28 digits for the rounded monetary
coefficient, and for the percentage an exact product within precision whose
adjusted exponent does not exceed `Emax`.  (Unamended, the error-free part
fails: see the counterexample.) -/
theorem claim_C2_errors (v : PyValue) :
    (∀ err, toDecimal v = .error err →
      MonetaryFieldSerializer.formatter v = .error err ∧
      PercentageFieldSerializer.formatter v = .error err) ∧
    (∀ d, toDecimal v = .ok d →
      (digitsCount (centsHalfUp d.coeff d.exp) ≤ 28 →
        ∃ s, MonetaryFieldSerializer.formatter v = .ok s) ∧
      (digitsCount (d.coeff * 100) ≤ 28 →
        d.exp + (digitsCount (d.coeff * 100) : Int) - 1 ≤ 999999 →
        ∃ s, PercentageFieldSerializer.formatter v = .ok s)) := by
  constructor
  · intro err herr
    constructor
    · show (toDecimal v).bind (fun amount =>
        (quantizeCents amount).bind fun q => pure ("$" ++ renderGrouped q.1 q.2)) =
          .error err
      rw [herr]
      rfl
    · show (toDecimal v).bind (fun d =>
        (mul100 d).bind fun p =>
          pure (renderPlain p.sign (rescaleHalfEvenCents p.coeff p.exp) ++ "%")) =
          .error err
      rw [herr]
      rfl
  · intro d hd
    constructor
    · intro h
      refine ⟨"$" ++ renderGrouped d.sign (centsHalfUp d.coeff d.exp), ?_⟩
      show (toDecimal v).bind (fun amount =>
        (quantizeCents amount).bind fun q => pure ("$" ++ renderGrouped q.1 q.2)) = _
      rw [hd]
      have hq : quantizeCents d = .ok (d.sign, centsHalfUp d.coeff d.exp) := by
        unfold quantizeCents
        rw [if_pos h]
      simp only [Except.bind, hq, pure]
      rfl
    · intro h1 h2
      have hm : mul100 d = .ok ⟨d.sign, d.coeff * 100, d.exp⟩ ∨
          mul100 d = .ok ⟨d.sign, 0, d.exp⟩ := by
        unfold mul100 contextFix
        rw [if_pos h1]
        by_cases hz : d.coeff * 100 = 0
        · rw [if_pos hz]
          right
          rfl
        · rw [if_neg hz, if_neg (by omega)]
          left
          rfl
      rcases hm with hm | hm
      · refine ⟨renderPlain d.sign (rescaleHalfEvenCents (d.coeff * 100) d.exp) ++ "%", ?_⟩
        show (toDecimal v).bind (fun d =>
          (mul100 d).bind fun p =>
            pure (renderPlain p.sign (rescaleHalfEvenCents p.coeff p.exp) ++ "%")) = _
        rw [hd]
        simp only [Except.bind, hm, pure]
        rfl
      · refine ⟨renderPlain d.sign (rescaleHalfEvenCents 0 d.exp) ++ "%", ?_⟩
        show (toDecimal v).bind (fun d =>
          (mul100 d).bind fun p =>
            pure (renderPlain p.sign (rescaleHalfEvenCents p.coeff p.exp) ++ "%")) = _
        rw [hd]
        simp only [Except.bind, hm, pure]
        rfl

/-- Witness for C2: a non-numeric string errors out of both formatters, and
an ordinary coercible value formats without error. -/
theorem claim_C2_witness :
    (MonetaryFieldSerializer.formatter (.pstr "abc") = .error .invalidOperation ∧
      PercentageFieldSerializer.formatter (.pstr "abc") = .error .invalidOperation) ∧
    (∃ s, MonetaryFieldSerializer.formatter (.pstr "-12.5") = .ok s) ∧
    (∃ s, PercentageFieldSerializer.formatter (.pstr "-12.5") = .ok s) := by
  refine ⟨(claim_C2_errors (.pstr "abc")).1 .invalidOperation rfl, ?_, ?_⟩
  · exact (((claim_C2_errors (.pstr "-12.5")).2 ⟨true, 125, -1⟩ rfl).1 (by decide))
  · exact (((claim_C2_errors (.pstr "-12.5")).2 ⟨true, 125, -1⟩ rfl).2 (by decide) (by decide))

/-- Counterexample to C2 as stated: `"1E+30"` is coercible (it parses as a
finite decimal), yet the monetary formatter raises instead of formatting it. -/
theorem claim_C2_counterexample :
    parseDecimal "1E+30" = some ⟨false, 1, 30⟩ ∧
    MonetaryFieldSerializer.formatter (.pstr "1E+30") = .error .invalidOperation :=
  ⟨rfl, rfl⟩

/-- Claim C3: the date formatter converts an aware timestamp to the (fixed
offset) local zone before rendering `'%b %d %Y at %I:%M %p'`, so any two
aware timestamps denoting the same instant render identically, and UTC
2024-03-05T13:30:00Z renders in a UTC-5 (America/New_York-equivalent) local
zone as `Mar 05 2024 at 08:30 AM`. -/
theorem claim_C3_date_normalizing :
    (∀ (localOff : Int) (t1 t2 : PyDatetime) (o1 o2 : Int),
      t1.tzOffset = some o1 → t2.tzOffset = some o2 →
      utcMinutes t1 o1 = utcMinutes t2 o2 →
      DateFieldSerializer.formatter localOff t1 = DateFieldSerializer.formatter localOff t2) ∧
    DateFieldSerializer.formatter (-300) ⟨2024, 3, 5, 13, 30, some 0⟩ =
      "Mar 05 2024 at 08:30 AM" := by
  refine ⟨fun localOff t1 t2 o1 o2 h1 h2 heq => ?_, rfl⟩
  unfold DateFieldSerializer.formatter
  rw [h1, h2]
  show strftimeDisplay (civilOfMinutes (utcMinutes t1 o1 + localOff)) =
    strftimeDisplay (civilOfMinutes (utcMinutes t2 o2 + localOff))
  rw [heq]

/-- Witness for C3: 15:30+02:00 and 13:30Z are the same instant and render
to the same string in the UTC-5 local zone. -/
theorem claim_C3_witness :
    DateFieldSerializer.formatter (-300) ⟨2024, 3, 5, 15, 30, some 120⟩ =
      DateFieldSerializer.formatter (-300) ⟨2024, 3, 5, 13, 30, some 0⟩ :=
  claim_C3_date_normalizing.1 (-300) _ _ 120 0 rfl rfl (by decide)

/-- Claim C4 (amended): for a valid decimal input within the context's
precision (product coefficient at most 28 digits, adjusted exponent within
`Emax`), the percentage formatter renders the value times 100 with exactly
two fractional digits followed by `%`.  In particular `0 ↦ 0.00%`,
`1 ↦ 100.00%`, `0.4567 ↦ 45.67%`.  (Unamended, the claim fails for wider
inputs, where the context rounds the product to 28 digits first: see the
counterexample.) -/
theorem claim_C4_percentage (d : Dec)
    (h1 : digitsCount (d.coeff * 100) ≤ 28)
    (h2 : d.exp + (digitsCount (d.coeff * 100) : Int) - 1 ≤ 999999) :
    PercentageFieldSerializer.formatter (.pdec d) = .ok (specPercentage d) := by
  have hm : mul100 d = .ok ⟨d.sign, d.coeff * 100, d.exp⟩ ∨
      (d.coeff * 100 = 0 ∧ mul100 d = .ok ⟨d.sign, 0, d.exp⟩) := by
    unfold mul100 contextFix
    rw [if_pos h1]
    by_cases hz : d.coeff * 100 = 0
    · rw [if_pos hz]
      right
      exact ⟨hz, rfl⟩
    · rw [if_neg hz, if_neg (by omega)]
      left
      rfl
  have hkey : renderPlain d.sign (rescaleHalfEvenCents (d.coeff * 100) d.exp) ++ "%" =
      specPercentage d := by
    unfold specPercentage specHundredths decAbsRat
    rw [rescaleHalfEvenCents_eq_spec]
    have : ((d.coeff * 100 : Nat) : ℚ) * (10 : ℚ) ^ d.exp * 100 =
        (d.coeff : ℚ) * (10 : ℚ) ^ d.exp * 10000 := by
      push_cast
      ring
    rw [this]
  show (toDecimal (.pdec d)).bind (fun d =>
    (mul100 d).bind fun p =>
      pure (renderPlain p.sign (rescaleHalfEvenCents p.coeff p.exp) ++ "%")) = _
  rw [show toDecimal (.pdec d) = .ok d from rfl]
  rcases hm with hm | ⟨hz, hm⟩
  · simp only [Except.bind, hm, pure]
    rw [hkey]
    rfl
  · simp only [Except.bind, hm, pure]
    rw [← hz, hkey]
    rfl

/-- Witness for C4: the spec's examples `0 ↦ 0.00%`, `1 ↦ 100.00%`,
`0.4567 ↦ 45.67%`, via the theorem. -/
theorem claim_C4_witness :
    PercentageFieldSerializer.formatter (.pdec ⟨false, 0, 0⟩) = .ok "0.00%" ∧
    PercentageFieldSerializer.formatter (.pdec ⟨false, 1, 0⟩) = .ok "100.00%" ∧
    PercentageFieldSerializer.formatter (.pdec ⟨false, 4567, -4⟩) = .ok "45.67%" := by
  have h0 := claim_C4_percentage ⟨false, 0, 0⟩ (by decide) (by decide)
  have h1 := claim_C4_percentage ⟨false, 1, 0⟩ (by decide) (by decide)
  have h2 := claim_C4_percentage ⟨false, 4567, -4⟩ (by decide) (by decide)
  rw [h0, h1, h2]
  have e0 : specHundredths ⟨false, 0, 0⟩ = 0 := by
    unfold specHundredths decAbsRat halfEvenRound
    norm_num
  have e1 : specHundredths ⟨false, 1, 0⟩ = 10000 := by
    unfold specHundredths decAbsRat halfEvenRound
    norm_num
    rfl
  have e2 : specHundredths ⟨false, 4567, -4⟩ = 4567 := by
    unfold specHundredths decAbsRat halfEvenRound
    norm_num
    rfl
  unfold specPercentage
  rw [e0, e1, e2]
  exact ⟨rfl, rfl, rfl⟩

/-- Counterexample to C4 as stated: for
`v = 0.4013499999999999999999999999999` (31 significant digits) the exact
value of `v * 100` is `40.134999…`, whose two-fractional-digit rendering is
`40.13`, but the context first rounds the product to 28 digits (giving
exactly `40.135`) and the `.2f` rescale then rounds half-even to `40.14` —
so the code prints a string other than the rendering of `v * 100`. -/
theorem claim_C4_counterexample :
    parseDecimal "0.4013499999999999999999999999999" =
      some ⟨false, 4013499999999999999999999999999, -31⟩ ∧
    PercentageFieldSerializer.formatter
      (.pstr "0.4013499999999999999999999999999") = .ok "40.14%" ∧
    specPercentage ⟨false, 4013499999999999999999999999999, -31⟩ = "40.13%" := by
  refine ⟨rfl, rfl, ?_⟩
  have e : specHundredths ⟨false, 4013499999999999999999999999999, -31⟩ = 4013 := by
    unfold specHundredths decAbsRat halfEvenRound
    rw [Int.fract]
    norm_num
    rfl
  unfold specPercentage
  rw [e]
  rfl

/-- Claim C5: the masked formatter returns a string of `*` of exactly the
length of `str(value)`; `"secret" ↦ "******"` and `12345 ↦ "*****"`. -/
theorem claim_C5_masked :
    (∀ v : PyValue, ∃ s, MaskedFieldSerializer.formatter v = .ok s ∧
      s.length = (pyStr v).length ∧ ∀ c ∈ s.data, c = '*') ∧
    MaskedFieldSerializer.formatter (.pstr "secret") = .ok "******" ∧
    MaskedFieldSerializer.formatter (.pint 12345) = .ok "*****" := by
  refine ⟨fun v => ⟨String.mk (List.replicate (pyStr v).length '*'), rfl, ?_, ?_⟩, rfl, rfl⟩
  · show (List.replicate (pyStr v).length '*').length = (pyStr v).length
    exact List.length_replicate _ _
  · intro c hc
    exact List.eq_of_mem_replicate hc

/-- Claim C6: the boolean formatter renders `True` for `true`, `False` for
`false`, and never anything else. -/
theorem claim_C6_boolean :
    BooleanFieldSerializer.formatter (.pbool true) = .ok "True" ∧
    BooleanFieldSerializer.formatter (.pbool false) = .ok "False" ∧
    ∀ v : PyValue, BooleanFieldSerializer.formatter v = .ok "True" ∨
      BooleanFieldSerializer.formatter v = .ok "False" := by
  refine ⟨rfl, rfl, fun v => ?_⟩
  unfold BooleanFieldSerializer.formatter
  by_cases h : pyTruthy v
  · left
    rw [if_pos h]
  · right
    rw [if_neg h]

/-- Claim C7: the duration formatter is `str(value)` — the canonical
`days, H:MM:SS` long form with no custom formatting — and a negative
interval renders with a leading minus sign. -/
theorem claim_C7_duration (td : Timedelta) (_hs : td.seconds < 86400)
    (_hus : td.microseconds < 1000000) :
    (DurationFieldSerializer.formatter (.ptimedelta td) = .ok (pyTimedeltaStr td) ∧
      (td.days < 0 → ∃ rest, pyTimedeltaStr td = "-" ++ rest)) ∧
    pyTimedeltaStr ⟨1, 7384, 0⟩ = "1 day, 2:03:04" := by
  refine ⟨⟨rfl, fun hneg => ?_⟩, rfl⟩
  simp only [pyTimedeltaStr, intStr]
  rw [if_neg (by omega : ¬td.days = 0), if_pos hneg]
  by_cases hms : td.microseconds = 0
  · rw [if_pos hms]
    rw [String.append_assoc, String.append_assoc]
    exact ⟨_, rfl⟩
  · rw [if_neg hms]
    rw [String.append_assoc, String.append_assoc, String.append_assoc, String.append_assoc]
    exact ⟨_, rfl⟩

/-- Witness for C7: `timedelta(days=-1, seconds=84900)` renders as its
canonical string, which starts with a minus sign. -/
theorem claim_C7_witness :
    DurationFieldSerializer.formatter (.ptimedelta ⟨-1, 84900, 0⟩) =
      .ok (pyTimedeltaStr ⟨-1, 84900, 0⟩) ∧
    (∃ rest, pyTimedeltaStr ⟨-1, 84900, 0⟩ = "-" ++ rest) ∧
    pyTimedeltaStr ⟨-1, 84900, 0⟩ = "-1 day, 23:35:00" := by
  have h := claim_C7_duration ⟨-1, 84900, 0⟩ (by decide) (by decide)
  exact ⟨h.1.1, h.1.2 (by decide), rfl⟩

/-- Claim C8: deserialization (`to_internal_value`) is the identity: any
input of any type is returned unchanged. -/
theorem claim_C8_to_internal_value_identity :
    ∀ (α : Type) (data : α), to_internal_value data = data :=
  fun _ _ => rfl

/-- Claim C9: formatting is deterministic and stateless — in any sequence
of calls, each call's result is the pure function `format` of its own kind
and value alone (independent of preceding and following calls), and two
calls on the same input give the same output. -/
theorem claim_C9_stateless :
    ∀ (localOff : Int) (pre post : List (FormatterKind × PyValue))
      (c : FormatterKind × PyValue),
      runCalls localOff (pre ++ c :: post) =
        runCalls localOff pre ++ format localOff c.1 c.2 :: runCalls localOff post ∧
      runCalls localOff [c, c] = [format localOff c.1 c.2, format localOff c.1 c.2] := by
  intro localOff pre post c
  constructor
  · unfold runCalls
    rw [List.map_append, List.map_cons]
  · rfl

/-- Claim C10: the percentage formatter rounds half-even (banker's
rounding), not half-up: at `v = 0.40125`, `v * 100 = 40.125` renders as
`40.12%`, while rounding the same value half-up at the second fractional
digit (as the monetary path does) would give `40.13`. -/
theorem claim_C10_percentage_half_even :
    PercentageFieldSerializer.formatter (.pstr "0.40125") = .ok "40.12%" ∧
    renderPlain false (centsHalfUp (40125 * 100) (-5)) ++ "%" = "40.13%" ∧
    ("40.12%" : String) ≠ "40.13%" :=
  ⟨rfl, rfl, by decide⟩

end FormatSerializers
